import Mathlib

/-!
Shallow embedding of `src/convert_to_text.py`, a batch converter from
OpenDocument containers (`.odt` text documents, `.ods` spreadsheets) to plain
text, together with theorems settling the specification claims.

The Python string operations used by the source (`str.strip`, `str.rstrip`,
`str.lower`, `str.join`, `int(...)`) are modelled over `List Char` so that all
definitions evaluate inside the kernel.  XML documents are modelled as an
ordered tree of named nodes mirroring `xml.etree.ElementTree`: each element has
a tag, an attribute association list, optional text, optional tail, and a list
of children; `itertext`, `iter`, `find` and `findall` follow the semantics of
the Python library functions actually called by the source.  The zip-container
read (`_read_content_xml`) and the XML parse (`_parse_xml`) are abstracted into
an `Except` value carried by each input file: an `.error` models an archive or
parse failure with its message, an `.ok` the parsed root element.  The batch
driver `main` is embedded as explicit state passing over the output directory
(an association of output file name to content), the tallies, and the
diagnostic log; the write call `Path.write_text` is modelled by an oracle that
either succeeds or fails, a failing write optionally leaving behind the prefix
of the content that was flushed before the error (Python's `write_text` opens,
truncates and writes in place, so it is not atomic).
-/

namespace ConvertToText

/-- Python whitespace as recognized by `str.strip` / `str.rstrip` (ASCII part). -/
def isPySpace (c : Char) : Bool :=
  c = ' ' || c = '\t' || c = '\n' || c = '\x0d' || c = '\x0b' || c = '\x0c'

/-- Python `str.strip()` with no argument: drop leading and trailing whitespace. -/
def pyStrip (s : String) : String :=
  (((s.toList.dropWhile isPySpace).reverse.dropWhile isPySpace).reverse).asString

/-- Python `str.rstrip()`: drop trailing whitespace. -/
def pyRStrip (s : String) : String :=
  ((s.toList.reverse.dropWhile isPySpace).reverse).asString

/-- ASCII lower-casing of one character, as `str.lower` does on ASCII input. -/
def pyLowerChar (c : Char) : Char :=
  if 'A' ≤ c ∧ c ≤ 'Z' then Char.ofNat (c.toNat + 32) else c

/-- Python `str.lower()` (ASCII part). -/
def pyLower (s : String) : String := (s.toList.map pyLowerChar).asString

/-- Python `sep.join(xs)`. -/
def pyJoin (sep : String) : List String → String
  | [] => ""
  | [x] => x
  | x :: xs => x ++ sep ++ pyJoin sep xs

/-- Python `s.endswith(t)`, used to model `glob("*.odt")` / `glob("*.ods")`. -/
def endsWithStr (s t : String) : Bool :=
  t.toList.isSuffixOf s.toList

/-- Code-point lexicographic `<` on strings as character lists (Python `str <`). -/
def charListLt : List Char → List Char → Bool
  | [], [] => false
  | [], _ :: _ => true
  | _ :: _, [] => false
  | a :: as, b :: bs => if a < b then true else if b < a then false else charListLt as bs

/-- Digit run of Python `int(str)`: ASCII digits with single underscores allowed
between digits.  The boolean tracks whether the previous character was a digit. -/
def digitRun : List Char → Bool → Nat → Option Nat
  | [], lastDigit, acc => if lastDigit then some acc else none
  | c :: cs, lastDigit, acc =>
    if c.isDigit then digitRun cs true (acc * 10 + (c.toNat - 48))
    else if c = '_' ∧ lastDigit then digitRun cs false acc
    else none

/-- Python `int(s)` on a string: surrounding whitespace stripped, optional sign,
then a non-empty digit run; `none` models the `ValueError` of a malformed value. -/
def pyInt (s : String) : Option Int :=
  match (pyStrip s).toList with
  | '+' :: cs => (digitRun cs false 0).map Int.ofNat
  | '-' :: cs => (digitRun cs false 0).map (fun n => -(n : Int))
  | cs => (digitRun cs false 0).map Int.ofNat

/-- An XML element as produced by `ET.fromstring`: tag (with expanded
namespace), attribute association list, text, tail, children in document order. -/
inductive Elem where
  | mk (tag : String) (attrib : List (String × String)) (text : Option String)
       (tail : Option String) (children : List Elem)

def Elem.tag : Elem → String
  | .mk t _ _ _ _ => t

def Elem.attrib : Elem → List (String × String)
  | .mk _ a _ _ _ => a

def Elem.text : Elem → Option String
  | .mk _ _ tx _ _ => tx

def Elem.tail : Elem → Option String
  | .mk _ _ _ tl _ => tl

def Elem.children : Elem → List Elem
  | .mk _ _ _ _ cs => cs

/-- `el.attrib.get(key)` / `el.attrib.get(key, default)` without the default. -/
def attribGet (e : Elem) (k : String) : Option String :=
  (e.attrib.find? (fun p => p.1 = k)).map (fun p => p.2)

mutual
/-- `"".join(el.itertext())`: the element's text followed by, for each child in
order, the child's `itertext` and then the child's tail. -/
def itertext : Elem → String
  | .mk _ _ tx _ cs => tx.getD "" ++ itertextL cs
def itertextL : List Elem → String
  | [] => ""
  | c :: cs => itertext c ++ c.tail.getD "" ++ itertextL cs
end

mutual
/-- `list(el.iter())`: the element followed by all descendants, preorder, i.e.
document order. -/
def iterElem : Elem → List Elem
  | .mk t a tx tl cs => .mk t a tx tl cs :: iterL cs
def iterL : List Elem → List Elem
  | [] => []
  | c :: cs => iterElem c ++ iterL cs
end

/-- `el.find(path, NS)` for a single-tag path: first direct child with that tag. -/
def findChild (e : Elem) (t : String) : Option Elem :=
  e.children.find? (fun c => c.tag = t)

/-- `el.findall(path, NS)` for a single-tag path: all direct children with that tag. -/
def findallChildren (e : Elem) (t : String) : List Elem :=
  e.children.filter (fun c => c.tag = t)

def officeNS : String := "urn:oasis:names:tc:opendocument:xmlns:office:1.0"

def textNS : String := "urn:oasis:names:tc:opendocument:xmlns:text:1.0"

def tableNS : String := "urn:oasis:names:tc:opendocument:xmlns:table:1.0"

/-- ElementTree's expanded tag name `{namespace}local`. -/
def qn (ns l : String) : String := "\x7b" ++ ns ++ "\x7d" ++ l

/-- The tag test of the extraction loop: paragraph or heading node. -/
def isPH (t : String) : Bool := t = qn textNS "p" || t = qn textNS "h"

/-- The line-collection loop of `odt_to_text`: over the iterated nodes, for each
paragraph/heading node take its joined inner text, strip it, keep it if non-empty. -/
def collectLines : List Elem → List String
  | [] => []
  | el :: rest =>
    if isPH el.tag then
      if pyStrip (itertext el) = "" then collectLines rest
      else pyStrip (itertext el) :: collectLines rest
    else collectLines rest

/-- The de-duplication loop of `odt_to_text`: `prev` starts as `None`, a line
equal to `prev` is dropped, any other line is kept and becomes the new `prev`. -/
def dedupeAux : Option String → List String → List String
  | _, [] => []
  | prev, l :: rest =>
    if some l = prev then dedupeAux prev rest else l :: dedupeAux (some l) rest

def dedupe (lines : List String) : List String := dedupeAux none lines

/-- `odt_to_text` after the container read and parse: locate `office:body` then
`office:text` (returning `""` if either is absent), collect the lines of the
iterated paragraph/heading nodes, drop adjacent duplicates, join with blank
lines, strip, and append one newline. -/
def odt_to_text (root : Elem) : String :=
  match findChild root (qn officeNS "body") with
  | none => ""
  | some body =>
    match findChild body (qn officeNS "text") with
    | none => ""
    | some textBody =>
      pyStrip (pyJoin "\n\n" (dedupe (collectLines (iterElem textBody)))) ++ "\n"

/-- `_int_attr(el, qname, default=1)`: `int(el.attrib.get(qname, 1))` with the
default returned when the attribute value does not parse as an integer. -/
def int_attr (el : Elem) (qname : String) : Int :=
  match attribGet el qname with
  | none => 1
  | some s => (pyInt s).getD 1

/-- The repeat count actually used for materialization: `max(1, repeat)` as the
trip count of `range`. -/
def effRep (z : Int) : Nat := (max 1 z).toNat

/-- Cell text: the stripped inner texts of the cell's direct `text:p` children,
space-joined, then stripped. -/
def cellText (cell : Elem) : String :=
  pyStrip (pyJoin " " ((findallChildren cell (qn textNS "p")).map
    (fun p => pyStrip (itertext p))))

/-- `for _ in range(n): acc.append(x)`. -/
def pushN : Nat → String → List String → List String
  | 0, _, acc => acc
  | n + 1, x, acc => pushN n x (acc ++ [x])

/-- The cell loop of `ods_to_text`: each `table:table-cell` child appends its
text value once per effective column-repeat count. -/
def buildCells : List Elem → List String → List String
  | [], acc => acc
  | cell :: rest, acc =>
    buildCells rest
      (pushN (effRep (int_attr cell (qn tableNS "number-columns-repeated")))
        (cellText cell) acc)

/-- One rendered row: the cell values tab-joined, trailing whitespace stripped. -/
def renderRow (row : Elem) : String :=
  pyRStrip (pyJoin "\t" (buildCells (findallChildren row (qn tableNS "table-cell")) []))

/-- The row loop of `ods_to_text`: each `table:table-row` child appends its
rendered row once per effective row-repeat count. -/
def buildRows : List Elem → List String → List String
  | [], acc => acc
  | row :: rest, acc =>
    buildRows rest
      (pushN (effRep (int_attr row (qn tableNS "number-rows-repeated")))
        (renderRow row) acc)

def sheetName (table : Elem) : String :=
  (attribGet table (qn tableNS "name")).getD "Sheet"

/-- The sheet loop of `ods_to_text`: per `table:table` child, a `## name`
heading, then its rows, then one blank separator line. -/
def buildTables : List Elem → List String → List String
  | [], acc => acc
  | t :: rest, acc =>
    buildTables rest
      (buildRows (findallChildren t (qn tableNS "table-row"))
        (acc ++ ["## " ++ sheetName t]) ++ [""])

/-- `ods_to_text` after the container read and parse: locate `office:body` then
`office:spreadsheet` (returning `""` if either is absent), render all sheets,
newline-join, strip trailing whitespace, and append one newline. -/
def ods_to_text (root : Elem) : String :=
  match findChild root (qn officeNS "body") with
  | none => ""
  | some body =>
    match findChild body (qn officeNS "spreadsheet") with
    | none => ""
    | some ss =>
      pyRStrip (pyJoin "\n" (buildTables (findallChildren ss (qn tableNS "table")) [])) ++ "\n"

/-- An enumerated input file: its name within the input directory and the
outcome of reading `content.xml` from the container and parsing it (`.error`
carries the message of the archive or parse exception). -/
structure InFile where
  name : String
  parsed : Except String Elem

/-- Index of the last `'.'` in the character list (CPython `str.rfind('.')`). -/
def lastDotIdx : List Char → Nat → Option Nat → Option Nat
  | [], _, best => best
  | c :: cs, i, best => lastDotIdx cs (i + 1) (if c = '.' then some i else best)

/-- CPython `PurePath` stem/suffix split: the last `'.'` splits the name only
when it is neither the first nor the last character. -/
def splitExt (name : String) : String × String :=
  let cs := name.toList
  match lastDotIdx cs 0 none with
  | none => (name, "")
  | some i =>
    if 0 < i ∧ i + 1 < cs.length then ((cs.take i).asString, (cs.drop i).asString)
    else (name, "")

def stemOf (name : String) : String := (splitExt name).1

def extOf (name : String) : String := (splitExt name).2

/-- `convert_one`: dispatch on the lower-cased extension, raising the
unsupported-type `ValueError` for any other extension; read/parse errors of the
selected extractor propagate. -/
def convert_one (f : InFile) : Except String String :=
  let ext := pyLower (extOf f.name)
  if ext = ".odt" then f.parsed.map odt_to_text
  else if ext = ".ods" then f.parsed.map ods_to_text
  else .error ("Unsupported file type: " ++ f.name)

/-- Stable insertion for `sorted(..., key=lambda p: p.name.lower())`: an element
is placed after every existing element whose key is not greater. -/
def insertSorted (f : InFile) : List InFile → List InFile
  | [] => [f]
  | g :: gs =>
    if charListLt (pyLower f.name).toList (pyLower g.name).toList then f :: g :: gs
    else g :: insertSorted f gs

def sortFiles (l : List InFile) : List InFile :=
  l.foldl (fun acc f => insertSorted f acc) []

/-- The candidate enumeration of `main`: the `*.odt` glob results then the
`*.ods` glob results, sorted case-insensitively by name. -/
def enumerate (dirFiles : List InFile) : List InFile :=
  sortFiles (dirFiles.filter (fun f => endsWithStr f.name ".odt")
    ++ dirFiles.filter (fun f => endsWithStr f.name ".ods"))

/-- Outcome of one `Path.write_text` call.  `err none` models a failure before
anything is written (e.g. open denied); `err (some s)` models a failure after
the prefix `s` was written, since `write_text` truncates and writes in place. -/
inductive WriteOutcome where
  | ok
  | err (written : Option String) (msg : String)

/-- The file-system write oracle: what `Path.write_text` does for a given
output name and content. -/
structure Env where
  write : String → String → WriteOutcome

/-- Driver state: output directory contents (name, content; most recent first),
the three tallies, and the stderr diagnostic lines in order. -/
structure BatchState where
  outDir : List (String × String)
  converted : Nat
  skipped : Nat
  failed : Nat
  errLog : List String
  deriving DecidableEq

/-- `out_dir / f"{doc.stem}.txt"`, relative to the output directory. -/
def outName (f : InFile) : String := stemOf f.name ++ ".txt"

/-- The diagnostic line `ERROR: {doc.name}: {e}`. -/
def errLine (name msg : String) : String := "ERROR: " ++ name ++ ": " ++ msg

/-- One iteration of the batch loop: skip if the output exists and overwrite is
not requested; otherwise convert and write, tallying the outcome and logging a
diagnostic on any failure. -/
def processFile (env : Env) (overwrite : Bool) (st : BatchState) (f : InFile) :
    BatchState :=
  let path := outName f
  if (st.outDir.lookup path).isSome && !overwrite then
    { st with skipped := st.skipped + 1 }
  else
    match convert_one f with
    | .error e =>
      { st with failed := st.failed + 1, errLog := st.errLog ++ [errLine f.name e] }
    | .ok text =>
      match env.write path text with
      | .ok =>
        { st with outDir := (path, text) :: st.outDir, converted := st.converted + 1 }
      | .err none msg =>
        { st with failed := st.failed + 1, errLog := st.errLog ++ [errLine f.name msg] }
      | .err (some s) msg =>
        { st with outDir := (path, s) :: st.outDir, failed := st.failed + 1,
                  errLog := st.errLog ++ [errLine f.name msg] }

/-- The batch loop over the enumerated files. -/
def mainLoop (env : Env) (overwrite : Bool) : BatchState → List InFile → BatchState
  | st, [] => st
  | st, f :: fs => mainLoop env overwrite (processFile env overwrite st f) fs

def initState (outDir0 : List (String × String)) : BatchState :=
  ⟨outDir0, 0, 0, 0, []⟩

/-- `main`: enumerate, return 0 immediately if nothing was found, otherwise run
the loop and return exit status 0 on no failures and 2 otherwise, along with
the final state. -/
def main (env : Env) (outDir0 : List (String × String)) (dirFiles : List InFile)
    (overwrite : Bool) : Nat × BatchState :=
  let files := enumerate dirFiles
  if files.isEmpty then (0, initState outDir0)
  else
    let st := mainLoop env overwrite (initState outDir0) files
    (if st.failed = 0 then 0 else 2, st)

/-- A paragraph node with the given text. -/
def pNode (s : String) : Elem := .mk (qn textNS "p") [] (some s) none []

/-- The text section of the spec's end-to-end text document. -/
def helloText : Elem :=
  .mk (qn officeNS "text") [] none none [pNode "Hello", pNode "Hello", pNode "World"]

/-- The body of the spec's end-to-end text document. -/
def helloBody : Elem := .mk (qn officeNS "body") [] none none [helloText]

/-- The spec's end-to-end text document: paragraphs Hello, Hello, World. -/
def helloDoc : Elem := .mk "doc" [] none none [helloBody]

/-- A spreadsheet cell holding one paragraph. -/
def cellNode (s : String) : Elem :=
  .mk (qn tableNS "table-cell") [] none none [pNode s]

/-- The spec's example row: cells A, B, repeated twice. -/
def rowAB : Elem :=
  .mk (qn tableNS "table-row") [(qn tableNS "number-rows-repeated", "2")] none none
    [cellNode "A", cellNode "B"]

/-- The spec's end-to-end spreadsheet: one sheet named Data with the row above. -/
def dataDoc : Elem :=
  .mk "doc" [] none none
    [.mk (qn officeNS "body") [] none none
      [.mk (qn officeNS "spreadsheet") [] none none
        [.mk (qn tableNS "table") [(qn tableNS "name", "Data")] none none [rowAB]]]]

/-- A document with no `office:body` child. -/
def emptyDoc : Elem := .mk "doc" [] none none []

/-- An environment whose writes all succeed. -/
def okEnv : Env := ⟨fun _ _ => .ok⟩

/-! Helper lemmas shared by the claim theorems. -/

theorem pushN_eq (n : Nat) (x : String) :
    ∀ acc, pushN n x acc = acc ++ List.replicate n x := by
  induction n with
  | zero => intro acc; simp [pushN]
  | succ m ih =>
    intro acc
    rw [pushN, ih]
    simp [List.replicate_succ, List.append_assoc]

theorem effRep_pos (z : Int) : 1 ≤ effRep z := by
  unfold effRep
  rcases le_total 1 z with h | h
  · rw [max_eq_right h]; omega
  · rw [max_eq_left h]; omega

theorem effRep_of_lt (z : Int) (h : z < 1) : effRep z = 1 := by
  unfold effRep
  rw [max_eq_left (le_of_lt h)]
  rfl

theorem effRep_natCast (N : Nat) (h : 1 ≤ N) : effRep (N : Int) = N := by
  unfold effRep
  rw [max_eq_right (by exact_mod_cast h)]
  omega

theorem dedupeAux_spec (l : List String) : ∀ prev,
    List.Chain' (· ≠ ·) (dedupeAux prev l) ∧
    ∀ x, (dedupeAux prev l).head? = some x → prev ≠ some x := by
  induction l with
  | nil =>
    intro prev
    exact ⟨List.chain'_nil, by intro x h; simp [dedupeAux] at h⟩
  | cons a rest ih =>
    intro prev
    by_cases h : some a = prev
    · rw [dedupeAux, if_pos h]
      exact ⟨(ih prev).1, (ih prev).2⟩
    · rw [dedupeAux, if_neg h]
      refine ⟨?_, ?_⟩
      · rw [List.chain'_cons']
        refine ⟨?_, (ih (some a)).1⟩
        intro b hb
        have hne := (ih (some a)).2 b (by simpa using hb)
        intro hab
        exact hne (by rw [hab])
      · intro x hx
        have hxa : a = x := by simpa using hx
        subst hxa
        exact fun hc => h hc.symm


theorem dedupeAux_sublist (l : List String) : ∀ prev, (dedupeAux prev l).Sublist l := by
  induction l with
  | nil => intro prev; simp [dedupeAux]
  | cons a rest ih =>
    intro prev
    by_cases h : some a = prev
    · rw [dedupeAux, if_pos h]
      exact (ih prev).cons a
    · rw [dedupeAux, if_neg h]
      exact (ih (some a)).cons₂ a

theorem dedupeAux_id (l : List String) : ∀ prev,
    (∀ x, l.head? = some x → prev ≠ some x) →
    List.Chain' (· ≠ ·) l → dedupeAux prev l = l := by
  induction l with
  | nil => intro prev _ _; simp [dedupeAux]
  | cons a rest ih =>
    intro prev hhead hch
    have hne : ¬ (some a = prev) := fun hc => (hhead a rfl) hc.symm
    rw [dedupeAux, if_neg hne]
    rw [List.chain'_cons'] at hch
    rw [ih (some a) ?_ hch.2]
    intro x hx hax
    exact (hch.1 x hx) (Option.some.inj hax)

/-- C1: for every well-formed text document, `odt_to_text` collapses
consecutive identical extracted lines to a single occurrence (the de-duplicated
line list never holds two adjacent equal lines and is a sublist of the
extracted lines) while preserving non-adjacent duplicate lines (a line list
with no adjacent duplicates passes through unchanged); in particular the
document whose paragraphs are Hello, Hello, World produces exactly the output
"Hello\n\nWorld\n". -/
theorem c1_adjacent_dedup :
    (∀ lines : List String, List.Chain' (· ≠ ·) (dedupe lines)) ∧
    (∀ lines : List String, (dedupe lines).Sublist lines) ∧
    (∀ lines : List String, List.Chain' (· ≠ ·) lines → dedupe lines = lines) ∧
    odt_to_text helloDoc = "Hello\n\nWorld\n" := by
  refine ⟨fun lines => (dedupeAux_spec lines none).1,
    fun lines => dedupeAux_sublist lines none, ?_, by decide⟩
  intro lines h
  exact dedupeAux_id lines none (by intro x _; simp) h

/-- Witness for C1: a list with only non-adjacent duplicates is preserved whole. -/
theorem c1_adjacent_dedup_witness :
    dedupe ["Hello", "World", "Hello"] = ["Hello", "World", "Hello"] :=
  c1_adjacent_dedup.2.2.1 ["Hello", "World", "Hello"] (by simp [List.chain'_cons])

/-- C2: a spreadsheet row node whose repeat attribute parses to N ≥ 1
contributes exactly N identical rendered lines at its position in the output
line list, and a cell node whose column-repeat attribute parses to M ≥ 1
contributes its text value exactly M times to its row's tab-joined cell
sequence; the spec's example spreadsheet (one sheet Data, one row with cells
A, B repeated twice) renders as "## Data\nA\tB\nA\tB\n". -/
theorem c2_repeat_materialization :
    (∀ (row : Elem) (rows : List Elem) (acc : List String) (N : Nat),
      int_attr row (qn tableNS "number-rows-repeated") = (N : Int) → 1 ≤ N →
      buildRows (row :: rows) acc =
        buildRows rows (acc ++ List.replicate N (renderRow row))) ∧
    (∀ (cell : Elem) (cells : List Elem) (acc : List String) (M : Nat),
      int_attr cell (qn tableNS "number-columns-repeated") = (M : Int) → 1 ≤ M →
      buildCells (cell :: cells) acc =
        buildCells cells (acc ++ List.replicate M (cellText cell))) ∧
    ods_to_text dataDoc = "## Data\nA\tB\nA\tB\n" := by
  refine ⟨?_, ?_, by decide⟩
  · intro row rows acc N hN h1
    rw [buildRows, hN, effRep_natCast N h1, pushN_eq]
  · intro cell cells acc M hM h1
    rw [buildCells, hM, effRep_natCast M h1, pushN_eq]

/-- Witness for C2: the example row carries repeat count 2 and materializes as
two identical rendered lines. -/
theorem c2_repeat_materialization_witness :
    buildRows [rowAB] [] = buildRows [] ([] ++ List.replicate 2 (renderRow rowAB)) :=
  c2_repeat_materialization.1 rowAB [] [] 2 (by decide) (by decide)

/-- C6: for either document kind, a parsed document lacking the office body
element, or lacking the text/spreadsheet section under the body, makes
`odt_to_text` / `ods_to_text` return empty output (both are total functions,
so no error is possible). -/
theorem c6_bodyless_empty (root : Elem) :
    (findChild root (qn officeNS "body") = none →
      odt_to_text root = "" ∧ ods_to_text root = "") ∧
    (∀ body, findChild root (qn officeNS "body") = some body →
      (findChild body (qn officeNS "text") = none → odt_to_text root = "") ∧
      (findChild body (qn officeNS "spreadsheet") = none → ods_to_text root = "")) := by
  refine ⟨fun h => ⟨?_, ?_⟩, fun body hb => ⟨fun h => ?_, fun h => ?_⟩⟩ <;>
    simp [odt_to_text, ods_to_text, *]

/-- Witness for C6: a document with no body yields empty output of both kinds. -/
theorem c6_bodyless_empty_witness :
    odt_to_text emptyDoc = "" ∧ ods_to_text emptyDoc = "" :=
  (c6_bodyless_empty emptyDoc).1 rfl

/-- C7: the effective repeat count used for materialization is always at least
one: an absent repeat attribute defaults to 1, a malformed attribute value
normalizes to 1, any parsed integer below 1 is raised to 1 (while parsed
integers at least 1 are kept), and the number of lines (resp. cell values) a
row (resp. cell) node materializes is exactly its effective repeat count. -/
theorem c7_repeat_normalization :
    (∀ z : Int, 1 ≤ effRep z) ∧
    (∀ (el : Elem) (q : String), attribGet el q = none → int_attr el q = 1) ∧
    (∀ (el : Elem) (q s : String), attribGet el q = some s → pyInt s = none →
      int_attr el q = 1) ∧
    (∀ z : Int, z < 1 → effRep z = 1) ∧
    (∀ N : Nat, 1 ≤ N → effRep (N : Int) = N) ∧
    (∀ (row : Elem) (acc : List String),
      (buildRows [row] acc).length =
        acc.length + effRep (int_attr row (qn tableNS "number-rows-repeated"))) ∧
    (∀ (cell : Elem) (acc : List String),
      (buildCells [cell] acc).length =
        acc.length + effRep (int_attr cell (qn tableNS "number-columns-repeated"))) := by
  refine ⟨effRep_pos, ?_, ?_, effRep_of_lt, effRep_natCast, ?_, ?_⟩
  · intro el q h
    simp [int_attr, h]
  · intro el q s ha hp
    simp [int_attr, ha, hp]
  · intro row acc
    rw [buildRows, buildRows, pushN_eq]
    simp
  · intro cell acc
    rw [buildCells, buildCells, pushN_eq]
    simp

/-- Witness for C7: a malformed repeat attribute value normalizes to 1. -/
theorem c7_repeat_normalization_witness :
    int_attr (Elem.mk "row" [(qn tableNS "number-rows-repeated", "abc")] none none [])
      (qn tableNS "number-rows-repeated") = 1 :=
  c7_repeat_normalization.2.2.1
    (Elem.mk "row" [(qn tableNS "number-rows-repeated", "abc")] none none [])
    (qn tableNS "number-rows-repeated") "abc" rfl rfl

/-- C8: the line-collection loop of `odt_to_text` over the iterated node list
is exactly a filter to paragraph/heading nodes in document order, a map to the
stripped inner text, and a filter to non-empty lines — so the extracted lines
appear in exactly the source order of those nodes; and for any document whose
body and text section are present, the output of `odt_to_text` is the blank
line join of the de-duplication of that ordered line list, stripped, with one
trailing newline appended. -/
theorem c8_line_order :
    (∀ l : List Elem,
      collectLines l =
        ((l.filter (fun el => isPH el.tag)).map (fun el => pyStrip (itertext el))).filter
          (fun s => !(s == ""))) ∧
    (∀ (root body textBody : Elem),
      findChild root (qn officeNS "body") = some body →
      findChild body (qn officeNS "text") = some textBody →
      odt_to_text root =
        pyStrip (pyJoin "\n\n" (dedupe (collectLines (iterElem textBody)))) ++ "\n") := by
  constructor
  · intro l
    induction l with
    | nil => rfl
    | cons el rest ih =>
      by_cases h1 : isPH el.tag
      · by_cases h2 : pyStrip (itertext el) = ""
        · simp [collectLines, h1, h2, ih, List.filter_cons, List.map_cons]
        · simp [collectLines, h1, h2, ih, List.filter_cons, List.map_cons]
      · simp [collectLines, h1, ih, List.filter_cons]
  · intro root body textBody h1 h2
    simp [odt_to_text, h1, h2]

/-- Witness for C8: the pipeline equation evaluated on the example document. -/
theorem c8_line_order_witness :
    odt_to_text helloDoc =
      pyStrip (pyJoin "\n\n" (dedupe (collectLines (iterElem helloText)))) ++ "\n" :=
  c8_line_order.2 helloDoc helloBody helloText rfl rfl

/-- C3: a per-file conversion error (archive read, parse, or unsupported type,
i.e. any `convert_one` failure) on a non-skipped file leaves the output
directory untouched, increments only the failed tally, and appends the
diagnostic line holding the file name and error message; a write failure
likewise increments the failed tally and logs the diagnostic line; and the
batch loop always continues past any file, processing every remaining file. -/
theorem c3_per_file_error_isolation :
    (∀ (env : Env) (ow : Bool) (st : BatchState) (f : InFile) (e : String),
      ((st.outDir.lookup (outName f)).isSome && !ow) = false →
      convert_one f = .error e →
      processFile env ow st f =
        { st with failed := st.failed + 1,
                  errLog := st.errLog ++ [errLine f.name e] }) ∧
    (∀ (env : Env) (ow : Bool) (st : BatchState) (f : InFile) (t : String)
        (w : Option String) (msg : String),
      ((st.outDir.lookup (outName f)).isSome && !ow) = false →
      convert_one f = .ok t →
      env.write (outName f) t = .err w msg →
      (processFile env ow st f).failed = st.failed + 1 ∧
      (processFile env ow st f).errLog = st.errLog ++ [errLine f.name msg]) ∧
    (∀ (env : Env) (ow : Bool) (st : BatchState) (pre : List InFile) (f : InFile)
        (rest : List InFile),
      mainLoop env ow st (pre ++ f :: rest) =
        mainLoop env ow (processFile env ow (mainLoop env ow st pre) f) rest) := by
  refine ⟨?_, ?_, ?_⟩
  · intro env ow st f e hg hc
    simp [processFile, hg, hc]
  · intro env ow st f t w msg hg hc hw
    cases w <;> simp [processFile, hg, hc, hw]
  · intro env ow st pre f rest
    induction pre generalizing st with
    | nil => rfl
    | cons g gs ih => rw [List.cons_append, mainLoop, ih, mainLoop]

/-- An input file whose container read fails (for instance not a zip archive). -/
def badFile : InFile := ⟨"bad.odt", .error "File is not a zip file"⟩

/-- Witness for C3: a failing file is tallied and logged, nothing else changes. -/
theorem c3_per_file_error_isolation_witness :
    processFile okEnv true (initState []) badFile =
      { initState [] with
          failed := (initState []).failed + 1,
          errLog := (initState []).errLog ++ [errLine "bad.odt" "File is not a zip file"] } :=
  c3_per_file_error_isolation.1 okEnv true (initState []) badFile
    "File is not a zip file" rfl rfl

/-- C4: `main` returns exit status 0 or 2; 0 exactly when no per-file
conversion failed (in particular when no candidate files are found, where the
fresh state with zero tallies is returned), and 2 exactly when at least one
file failed. -/
theorem c4_exit_status (env : Env) (outDir0 : List (String × String))
    (dirFiles : List InFile) (ow : Bool) :
    ((main env outDir0 dirFiles ow).1 = 0 ∨ (main env outDir0 dirFiles ow).1 = 2) ∧
    ((main env outDir0 dirFiles ow).1 = 0 ↔ (main env outDir0 dirFiles ow).2.failed = 0) ∧
    ((main env outDir0 dirFiles ow).1 = 2 ↔ 1 ≤ (main env outDir0 dirFiles ow).2.failed) ∧
    (enumerate dirFiles = [] → main env outDir0 dirFiles ow = (0, initState outDir0)) := by
  unfold main
  cases h : enumerate dirFiles with
  | nil => simp [initState]
  | cons f fs =>
    by_cases hf : (mainLoop env ow (initState outDir0) (f :: fs)).failed = 0
    · simp [hf]
    · simp [hf]
      omega

/-- Witness for C4: an empty input directory yields exit status 0 and a fresh state. -/
theorem c4_exit_status_witness :
    main okEnv [] [] false = (0, initState []) :=
  (c4_exit_status okEnv [] [] false).2.2.2 rfl

/-- C5: when a file's target output path already exists and overwrite is not
set, the batch step only increments the skipped tally: the output directory —
in particular the existing output's content — and all other state are left
unchanged, and no conversion or write occurs; consequently a whole batch over
files whose outputs all exist changes nothing except counting every file as
skipped. -/
theorem c5_skip_frame :
    (∀ (env : Env) (st : BatchState) (f : InFile),
      (st.outDir.lookup (outName f)).isSome = true →
      processFile env false st f = { st with skipped := st.skipped + 1 }) ∧
    (∀ (env : Env) (st : BatchState) (files : List InFile),
      (∀ f ∈ files, (st.outDir.lookup (outName f)).isSome = true) →
      mainLoop env false st files = { st with skipped := st.skipped + files.length }) := by
  have h1 : ∀ (env : Env) (st : BatchState) (f : InFile),
      (st.outDir.lookup (outName f)).isSome = true →
      processFile env false st f = { st with skipped := st.skipped + 1 } := by
    intro env st f h
    simp [processFile, h]
  refine ⟨h1, ?_⟩
  intro env st files
  induction files generalizing st with
  | nil => intro _; simp [mainLoop]
  | cons f fs ih =>
    intro hall
    rw [mainLoop, h1 env st f (hall f (by simp))]
    rw [ih { st with skipped := st.skipped + 1 } (fun g hg => hall g (by simp [hg]))]
    cases st
    simp
    omega

/-- An input file whose output is assumed to already exist in the witness below. -/
def preFile : InFile := ⟨"a.odt", .error "unread"⟩

/-- Witness for C5: with the output `a.txt` present and no overwrite, the batch
over `a.odt` leaves the state unchanged except for one skip. -/
theorem c5_skip_frame_witness :
    mainLoop okEnv false (initState [("a.txt", "old")]) [preFile] =
      { initState [("a.txt", "old")] with skipped := 1 } :=
  c5_skip_frame.2 okEnv (initState [("a.txt", "old")]) [preFile]
    (by intro f hf; rw [List.mem_singleton] at hf; subst hf; rfl)

/-- The spec's example text document packaged as the input file hello.odt. -/
def helloFile : InFile := ⟨"hello.odt", .ok helloDoc⟩

/-- An environment where every write fails after flushing only the prefix He,
as `Path.write_text` can when the disk fills mid-write. -/
def diskFullEnv : Env := ⟨fun _ _ => .err (some "He") "No space left on device"⟩

/-- C9 (refuting the all-or-nothing write): `hello.odt` converts successfully
to "Hello\n\nWorld\n", but when the write fails partway the batch tallies the
failure and leaves the truncated prefix He as the content of hello.txt — a
partially written output file. The source writes with a plain in-place
`Path.write_text` and has no temp-file-and-rename or cleanup step, so a failed
write is not all-or-nothing. -/
theorem c9_truncated_write_persists :
    convert_one helloFile = .ok "Hello\n\nWorld\n" ∧
    (processFile diskFullEnv false (initState []) helloFile).failed = 1 ∧
    (processFile diskFullEnv false (initState []) helloFile).outDir.lookup "hello.txt" =
      some "He" ∧
    "He" ≠ "Hello\n\nWorld\n" :=
  ⟨rfl, by decide, by decide, by decide⟩

/-- C10: report.odt and report.ods map to the same output name report.txt; the
enumeration processes report.ods first (case-insensitive name sort); and for
any two files sharing a stem, after the first is converted and written the
second is skipped untouched when overwrite is not set, while with overwrite
set the second's write overwrites the first's output at the shared path. -/
theorem c10_stem_collision :
    (stemOf "report.odt" ++ ".txt" = "report.txt" ∧
      stemOf "report.ods" ++ ".txt" = "report.txt") ∧
    (∀ p q : Except String Elem,
      (enumerate [⟨"report.odt", p⟩, ⟨"report.ods", q⟩]).map InFile.name =
        ["report.ods", "report.odt"]) ∧
    (∀ (env : Env) (st : BatchState) (f g : InFile) (t : String),
      outName f = outName g →
      st.outDir.lookup (outName f) = none →
      convert_one f = .ok t →
      env.write (outName f) t = .ok →
      (processFile env false st f).outDir.lookup (outName g) = some t ∧
      processFile env false (processFile env false st f) g =
        { processFile env false st f with
            skipped := (processFile env false st f).skipped + 1 }) ∧
    (∀ (env : Env) (st : BatchState) (f g : InFile) (tf tg : String),
      outName f = outName g →
      convert_one f = .ok tf →
      convert_one g = .ok tg →
      env.write (outName f) tf = .ok →
      env.write (outName g) tg = .ok →
      (processFile env true (processFile env true st f) g).outDir.lookup (outName g) =
        some tg) := by
  refine ⟨⟨rfl, rfl⟩, fun p q => rfl, ?_, ?_⟩
  · intro env st f g t heq hnone hconv hw
    have hstep : processFile env false st f =
        { st with outDir := (outName f, t) :: st.outDir,
                  converted := st.converted + 1 } := by
      simp [processFile, hnone, hconv, hw]
    have hlkg : (((outName f, t) :: st.outDir).lookup (outName g)) = some t := by
      rw [← heq]; simp [List.lookup]
    refine ⟨?_, ?_⟩
    · rw [hstep]; exact hlkg
    · rw [hstep]
      simp [processFile, hlkg]
  · intro env st f g tf tg heq hcf hcg hwf hwg
    have hstep : processFile env true st f =
        { st with outDir := (outName f, tf) :: st.outDir,
                  converted := st.converted + 1 } := by
      simp [processFile, hcf, hwf]
    rw [hstep, ← heq]
    simp [processFile, hcg, heq, hwg, List.lookup]

/-- The spec's example spreadsheet packaged as the input file report.ods. -/
def odsFile : InFile := ⟨"report.ods", .ok dataDoc⟩

/-- The spec's example text document packaged as the input file report.odt. -/
def odtFile : InFile := ⟨"report.odt", .ok helloDoc⟩

/-- Witness for C10: converting report.ods writes report.txt, and report.odt is
then skipped with the spreadsheet's output left in place. -/
theorem c10_stem_collision_witness :
    (processFile okEnv false (initState []) odsFile).outDir.lookup (outName odtFile) =
      some "## Data\nA\tB\nA\tB\n" ∧
    processFile okEnv false (processFile okEnv false (initState []) odsFile) odtFile =
      { processFile okEnv false (initState []) odsFile with
          skipped := (processFile okEnv false (initState []) odsFile).skipped + 1 } :=
  c10_stem_collision.2.2.1 okEnv (initState []) odsFile odtFile
    "## Data\nA\tB\nA\tB\n" rfl rfl rfl rfl

end ConvertToText
